import Mathlib

/-!
Verification of the halo-viewer 3D catalog rendering and camera-navigation
engine against its natural-language specification.

The definitions below are shallow embeddings of the TypeScript/GLSL source
in `PointCloud3D.tsx` (three revisions, called rev A, rev B and rev C in
source order) and `HaloCatalogPointCloud.tsx`.  Exact rational arithmetic
(`ℚ`) models the pure shader and layout computations; real arithmetic (`ℝ`)
models the geometric computations that involve vector norms.
-/

namespace HaloViewer

/-- GLSL `clamp(v, lo, hi) = min(max(v, lo), hi)`. -/
def clamp (v lo hi : ℚ) : ℚ := min (max v lo) hi

/-- The opacity computation of the rev C fragment shader
(`PointCloud3D.tsx`, fragment shader, lines 835-844):
`if (physicalRadius <= vCoreSize) alpha = 1.0; else
 alpha = clamp((vSize - physicalRadius) / (vSize - vCoreSize), 0.0, 1.0);`
with `ρ` the physical radius, `R = vSize` the outer (virial) radius and
`r = vCoreSize` the core radius. -/
def falloffAlpha (ρ R r : ℚ) : ℚ :=
  if ρ ≤ r then 1 else clamp ((R - ρ) / (R - r)) 0 1

/-- An RGBA fragment output. -/
structure FragColor where
  red : ℚ
  green : ℚ
  blue : ℚ
  alpha : ℚ
deriving DecidableEq

/-- The rev C fragment shader (`PointCloud3D.tsx`, lines 816-854) as a pure
function of the fragment physical radius `ρ`, the outer radius `R = vSize`,
the core radius `r = vCoreSize` and the uniform tint color.  `none` models a
discarded fragment.  The source computes `alpha` before the boundary-band
test and ignores it inside the band; since `alpha` has no side effect the
two forms are the same function.
`virialBandWidth = vSize * 0.02` and the band test is
`physicalRadius >= vSize - virialBandWidth && physicalRadius <= vSize`. -/
def fragShader (red green blue ρ R r : ℚ) : Option FragColor :=
  if R < ρ then none
  else if R - R * (2 / 100) ≤ ρ ∧ ρ ≤ R then some ⟨1, 1, 1, 8 / 10⟩
  else some ⟨red, green, blue, falloffAlpha ρ R r⟩

/-- The state written by `handleResize` (rev C, `PointCloud3D.tsx` lines
703-723): renderer pixel size, camera aspect and the `viewportSize` shader
uniform, all derived from one `(width, height)` pair. -/
structure ResizeOutcome where
  rendererWidth : ℚ
  rendererHeight : ℚ
  cameraAspect : ℚ
  uniformWidth : ℚ
  uniformHeight : ℚ
deriving DecidableEq

/-- `handleResize` (rev C): `width = rect.width`,
`height = Math.min(width, rect.height)`, then
`renderer.setSize(width, height)`, `camera.aspect = width / height` and
`uniforms.viewportSize.value.set(width, height)`. -/
def handleResize (rectWidth rectHeight : ℚ) : ResizeOutcome :=
  let width := rectWidth
  let height := min width rectHeight
  { rendererWidth := width
    rendererHeight := height
    cameraAspect := width / height
    uniformWidth := width
    uniformHeight := height }

/-- The position buffer built by the geometry construction loop (rev A lines
93-109 and rev C lines 765-782): for `i < x.length`,
`positions[i*3] = x[i]`, `positions[i*3+1] = y[i]`, `positions[i*3+2] = z[i]`. -/
def buildPositions (x y z : List ℚ) : List ℚ :=
  (List.range x.length).flatMap fun i => [x.getD i 0, y.getD i 0, z.getD i 0]

/-- The `size` attribute buffer: `radius[i] = size[i]` for `i < x.length`. -/
def buildRadius (x size : List ℚ) : List ℚ :=
  (List.range x.length).map fun i => size.getD i 0

/-- The `coreSize` attribute buffer: `coreRadius[i] = core_size[i]` for
`i < x.length`. -/
def buildCoreRadius (x core : List ℚ) : List ℚ :=
  (List.range x.length).map fun i => core.getD i 0

/-- One parsed halo record as consumed by `HaloCatalogPointCloud.tsx`. -/
structure Halo where
  id : ℤ
  x : ℚ
  y : ℚ
  z : ℚ
  mass : ℚ
  r200b : ℚ
  rc : ℚ
deriving DecidableEq

/-- `catalogQuery.data.halos.filter(halo => halo.mass >= massThreshold)`. -/
def filterHalos (halos : List Halo) (massThreshold : ℚ) : List Halo :=
  halos.filter fun halo => decide (massThreshold ≤ halo.mass)

/-- The six arrays handed to `PointCloud3D`. -/
structure RenderArrays where
  x : List ℚ
  y : List ℚ
  z : List ℚ
  rvir : List ℚ
  rc : List ℚ
  ids : List ℤ
deriving DecidableEq

/-- The `useMemo` projection of `HaloCatalogPointCloud.tsx` (lines 29-50):
filter by mass threshold, then map out x, y, z, r200b, rc and id. -/
def prepareData (halos : List Halo) (massThreshold : ℚ) : RenderArrays :=
  let filteredHalos := filterHalos halos massThreshold
  { x := filteredHalos.map fun halo => halo.x
    y := filteredHalos.map fun halo => halo.y
    z := filteredHalos.map fun halo => halo.z
    rvir := filteredHalos.map fun halo => halo.r200b
    rc := filteredHalos.map fun halo => halo.rc
    ids := filteredHalos.map fun halo => halo.id }

/-- A 3-component vector over the reals, modelling `THREE.Vector3`. -/
structure Vec3 where
  x : ℝ
  y : ℝ
  z : ℝ

/-- `a.clone().sub(b)`. -/
def Vec3.sub (a b : Vec3) : Vec3 := ⟨a.x - b.x, a.y - b.y, a.z - b.z⟩

/-- `v.multiplyScalar(t)`. -/
def Vec3.smul (t : ℝ) (v : Vec3) : Vec3 := ⟨t * v.x, t * v.y, t * v.z⟩

/-- `v.length()`. -/
noncomputable def Vec3.length (v : Vec3) : ℝ :=
  Real.sqrt (v.x ^ 2 + v.y ^ 2 + v.z ^ 2)

/-- `v.normalize()`, which in three.js is `v.divideScalar(v.length())`. -/
noncomputable def Vec3.normalize (v : Vec3) : Vec3 :=
  Vec3.smul (1 / v.length) v

/-- The fly-to end camera position (all three revisions):
`newCameraPosition =
   targetPosition.clone().sub(offsetDirection.multiplyScalar(distance))`
with `offsetDirection = targetPosition.clone().sub(currentPosition).normalize()`. -/
noncomputable def newCameraPosition (currentPosition targetPosition : Vec3)
    (distance : ℝ) : Vec3 :=
  Vec3.sub targetPosition
    (Vec3.smul distance (Vec3.normalize (Vec3.sub targetPosition currentPosition)))

/-- Rev A fly-to travel distance (line 271): `Math.max(haloSize * 10, 1.0)`. -/
def flyToDistanceRevA (haloSize : ℝ) : ℝ := max (haloSize * 10) 1

/-- Rev B fly-to travel distance (line 610): `Math.min(haloSize * 3, 0.1)`. -/
noncomputable def flyToDistanceRevB (haloSize : ℝ) : ℝ := min (haloSize * 3) (1 / 10)

/-- Rev C fly-to travel distance (line 949): `Math.max(haloSize * 2, 1.0)`. -/
def flyToDistanceRevC (haloSize : ℝ) : ℝ := max (haloSize * 2) 1

/-- The selection-change effect of `PointCloud3D` (identical in all three
revisions except for the `dist` formula): return early (no animation) when
no halo is selected, when `ids` is empty or when `selectedHaloId` is not
found by `ids.findIndex(id => id === selectedHaloId)`; otherwise produce
the animation end state: the new camera position and the entity position
(which is also the animation end state of the orbit target,
`controls.target`). -/
noncomputable def flyToCompute (dist : ℝ → ℝ) (ids : List ℤ)
    (selectedHaloId : Option ℤ) (xs ys zs sizes : List ℝ) (camPos : Vec3) :
    Option (Vec3 × Vec3) :=
  match selectedHaloId with
  | none => none
  | some s =>
    if ids.isEmpty then none
    else
      match ids.findIdx? fun id => id == s with
      | none => none
      | some haloIndex =>
        let targetPosition : Vec3 :=
          ⟨xs.getD haloIndex 0, ys.getD haloIndex 0, zs.getD haloIndex 0⟩
        let d := dist (sizes.getD haloIndex 0)
        some (newCameraPosition camPos targetPosition d, targetPosition)

/-- The rev A fly-to handler. -/
noncomputable def flyToHandlerRevA := flyToCompute flyToDistanceRevA

/-- The rev B fly-to handler. -/
noncomputable def flyToHandlerRevB := flyToCompute flyToDistanceRevB

/-- The rev C fly-to handler. -/
noncomputable def flyToHandlerRevC := flyToCompute flyToDistanceRevC

/-- The camera state `(position, orbit target)` after the handler runs:
unchanged when the handler was a no-op, otherwise driven to the animation
end state. -/
def applyFlyTo (state : Vec3 × Vec3) (result : Option (Vec3 × Vec3)) :
    Vec3 × Vec3 :=
  match result with
  | none => state
  | some endState => endState

/-- A clip-space position, the result of applying the projection matrix. -/
structure Clip4 where
  x : ℝ
  y : ℝ
  z : ℝ
  w : ℝ

/-- A three.js perspective projection matrix applied to a view-space
position: the matrix has the shape
`[[fx,0,0,0],[0,fy,0,0],[0,0,zA,zB],[0,0,-1,0]]`, so the clip `w`
component is `-z`. -/
def perspProj (fx fy zA zB : ℝ) (v : Vec3) : Clip4 :=
  ⟨fx * v.x, fy * v.y, zA * v.z + zB, -v.z⟩

/-- Normalized device coordinate: `c.xy / c.w`, x component. -/
noncomputable def ndcX (c : Clip4) : ℝ := c.x / c.w

/-- Normalized device coordinate: `c.xy / c.w`, y component. -/
noncomputable def ndcY (c : Clip4) : ℝ := c.y / c.w

/-- Length of a 2D screen-space vector. -/
noncomputable def len2 (a b : ℝ) : ℝ := Real.sqrt (a ^ 2 + b ^ 2)

/-- The rev C vertex shader sizing (lines 799-812):
`radiusPixels = length(offsetScreen - centerScreen) * viewportSize.x * 0.5`,
where `centerScreen` and `offsetScreen` are the projected positions of the
entity center `mv` and of the center displaced by the radius,
`mvOffset = modelViewMatrix * (position + vec3(size, 0, 0))`. -/
noncomputable def radiusPixels (fx fy zA zB W : ℝ) (mv mvOffset : Vec3) : ℝ :=
  len2 (ndcX (perspProj fx fy zA zB mvOffset) - ndcX (perspProj fx fy zA zB mv))
       (ndcY (perspProj fx fy zA zB mvOffset) - ndcY (perspProj fx fy zA zB mv))
    * W * (1 / 2)

/-- Rev C: `gl_PointSize = radiusPixels * 2.0`. -/
noncomputable def glPointSizeRevC (fx fy zA zB W : ℝ) (mv mvOffset : Vec3) : ℝ :=
  radiusPixels fx fy zA zB W mv mvOffset * 2

/-- Rev A vertex shader (line 127):
`gl_PointSize = size * 4.0 * 1000. / -mvPosition.z`. -/
noncomputable def glPointSizeRevA (size mvz : ℝ) : ℝ := size * 4 * 1000 / (-mvz)

/-- Rev C footprint for an entity on the view axis: with the view transform
normalized to the identity (camera at the origin looking down `-z`), an
entity at distance `D` on the axis has `mvPosition = (0, 0, -D)` and the
radius-displaced point is `(R, 0, -D)`. -/
noncomputable def footprintOnAxisRevC (fx fy zA zB W R D : ℝ) : ℝ :=
  glPointSizeRevC fx fy zA zB W ⟨0, 0, -D⟩ ⟨R, 0, -D⟩

/-- Rev A footprint for an entity on the view axis at distance `D`. -/
noncomputable def footprintOnAxisRevA (R D : ℝ) : ℝ := glPointSizeRevA R (-D)

/-!  ## Theorems for the claims -/

/-- C9: on a resize with a non-zero container size, the render height is
`min(container width, container height)`; the renderer pixel size, the
camera aspect and the `viewportSize` uniform are all derived from the same
`(width, height)` pair, so the aspect equals the renderer width over height
ratio and is at least 1. -/
theorem handleResize_consistency (rectWidth rectHeight : ℚ)
    (hw : 0 < rectWidth) (hh : 0 < rectHeight) :
    (handleResize rectWidth rectHeight).rendererHeight = min rectWidth rectHeight ∧
    (handleResize rectWidth rectHeight).rendererWidth = rectWidth ∧
    (handleResize rectWidth rectHeight).cameraAspect =
      (handleResize rectWidth rectHeight).rendererWidth /
        (handleResize rectWidth rectHeight).rendererHeight ∧
    (handleResize rectWidth rectHeight).uniformWidth =
      (handleResize rectWidth rectHeight).rendererWidth ∧
    (handleResize rectWidth rectHeight).uniformHeight =
      (handleResize rectWidth rectHeight).rendererHeight ∧
    1 ≤ (handleResize rectWidth rectHeight).cameraAspect := by
  have hmin : (0:ℚ) < min rectWidth rectHeight := lt_min hw hh
  refine ⟨rfl, rfl, rfl, rfl, rfl, ?_⟩
  show 1 ≤ rectWidth / min rectWidth rectHeight
  rw [le_div_iff₀ hmin]
  simpa using min_le_left rectWidth rectHeight

/-- C9 witness at a concrete container size. -/
theorem handleResize_consistency_witness :
    (handleResize 800 600).rendererHeight = min 800 600 ∧
    (handleResize 800 600).rendererWidth = 800 ∧
    (handleResize 800 600).cameraAspect =
      (handleResize 800 600).rendererWidth / (handleResize 800 600).rendererHeight ∧
    (handleResize 800 600).uniformWidth = (handleResize 800 600).rendererWidth ∧
    (handleResize 800 600).uniformHeight = (handleResize 800 600).rendererHeight ∧
    1 ≤ (handleResize 800 600).cameraAspect :=
  handleResize_consistency 800 600 (by norm_num) (by norm_num)

/-- C3: with `0 ≤ r ≤ R`, on any non-discarded fragment (`ρ ≤ R`): if
`r = R` the opaque branch `ρ ≤ r` is taken and the opacity is 1, and the
falloff division is only reached when `R - r > 0`, so the division by zero
is unreachable. -/
theorem fragShader_no_div_by_zero (ρ R r : ℚ) (hr0 : 0 ≤ r) (hrR : r ≤ R)
    (hnd : ¬ R < ρ) :
    (r = R → ρ ≤ r ∧ falloffAlpha ρ R r = 1) ∧
    (¬ ρ ≤ r → 0 < R - r) := by
  constructor
  · intro hEq
    have hρr : ρ ≤ r := by rw [hEq]; exact le_of_not_lt hnd
    exact ⟨hρr, by rw [falloffAlpha, if_pos hρr]⟩
  · intro hρr
    have h1 : r < ρ := lt_of_not_le hρr
    have h2 : ρ ≤ R := le_of_not_lt hnd
    linarith

/-- C3 witness: at `ρ = 1/2`, `R = r = 1` the opacity is 1 (the falloff
division is not evaluated). -/
theorem fragShader_no_div_by_zero_witness : falloffAlpha (1/2) 1 1 = 1 :=
  ((fragShader_no_div_by_zero (1/2) 1 1 (by norm_num) (by norm_num)
    (by norm_num)).1 rfl).2

/-- C7: a fragment with `R - 0.02 R ≤ ρ ≤ R` gets the white boundary ring
output with alpha 0.8 instead of the tinted falloff color; a fragment with
`ρ < R - 0.02 R` (hence `ρ ≤ R` when `0 ≤ R`) gets the tinted color with
the falloff opacity. -/
theorem fragShader_boundary_ring (red green blue ρ R r : ℚ) (hR : 0 ≤ R) :
    (R - R * (2 / 100) ≤ ρ → ρ ≤ R →
      fragShader red green blue ρ R r = some ⟨1, 1, 1, 8 / 10⟩) ∧
    (ρ < R - R * (2 / 100) →
      fragShader red green blue ρ R r =
        some ⟨red, green, blue, falloffAlpha ρ R r⟩) := by
  constructor
  · intro hband hρR
    rw [fragShader, if_neg (not_lt.mpr hρR), if_pos ⟨hband, hρR⟩]
  · intro hlow
    have hρR : ¬ R < ρ := by nlinarith
    rw [fragShader, if_neg hρR, if_neg]
    intro hband
    exact absurd hlow (not_lt.mpr hband.1)

/-- C7 witness: with `ρ = R = 1` the fragment is inside the 2 percent band
and is rendered as the white ring with alpha 0.8, even though `ρ ≤ r`. -/
theorem fragShader_boundary_ring_witness :
    fragShader 1 0 0 1 1 (1/2) = some ⟨1, 1, 1, 8 / 10⟩ :=
  (fragShader_boundary_ring 1 0 0 1 1 (1/2) (by norm_num)).1
    (by norm_num) (by norm_num)

/-- C1 counterexample: at `ρ = 0.99`, `R = 1`, `r = 0` the claim predicts
opacity `clamp((R - ρ)/(R - r), 0, 1) = 1/100`, but the shader is inside
the boundary-ring band and outputs white with alpha 0.8. -/
theorem fragShader_falloff_claim_cex :
    fragShader 0 0 0 (99/100) 1 0 = some ⟨1, 1, 1, 8 / 10⟩ ∧
    (8 / 10 : ℚ) ≠ clamp ((1 - 99/100) / (1 - 0)) 0 1 := by
  constructor
  · rw [fragShader, if_neg (by norm_num), if_pos (by norm_num)]
  · rw [clamp]
    norm_num

/-- C1 (amended): the shader discards exactly when `ρ > R`; outside the
2 percent boundary-ring band (`ρ < R - 0.02 R`) the opacity is 1 when
`ρ ≤ r` and otherwise the clamped linear falloff `(R - ρ)/(R - r)`; inside
the band the white ring with alpha 0.8 overrides the falloff; and when
`r < R` the falloff opacity tends to 0 as `ρ` approaches `R` from below. -/
theorem fragShader_falloff_law (red green blue ρ R r : ℚ)
    (hr0 : 0 ≤ r) (hrR : r ≤ R) :
    (fragShader red green blue ρ R r = none ↔ R < ρ) ∧
    (ρ ≤ r → ρ < R - R * (2 / 100) →
      fragShader red green blue ρ R r = some ⟨red, green, blue, 1⟩) ∧
    (r < ρ → ρ < R - R * (2 / 100) →
      fragShader red green blue ρ R r =
        some ⟨red, green, blue, clamp ((R - ρ) / (R - r)) 0 1⟩) ∧
    (R - R * (2 / 100) ≤ ρ → ρ ≤ R →
      fragShader red green blue ρ R r = some ⟨1, 1, 1, 8 / 10⟩) ∧
    (r < R → ∀ ε : ℚ, 0 < ε → ∃ δ : ℚ, 0 < δ ∧
      ∀ ρ2 : ℚ, R - δ < ρ2 → ρ2 < R → falloffAlpha ρ2 R r ≤ ε) := by
  have hR0 : 0 ≤ R := le_trans hr0 hrR
  refine ⟨?_, ?_, ?_, ?_, ?_⟩
  · constructor
    · intro h
      by_contra hlt
      rw [fragShader, if_neg hlt] at h
      split_ifs at h <;> exact Option.noConfusion h
    · intro h
      rw [fragShader, if_pos h]
  · intro hρr hlow
    have hρR : ¬ R < ρ := by nlinarith
    rw [fragShader, if_neg hρR, if_neg (fun hband => absurd hlow (not_lt.mpr hband.1)),
      falloffAlpha, if_pos hρr]
  · intro hrρ hlow
    have hρR : ¬ R < ρ := by nlinarith
    rw [fragShader, if_neg hρR, if_neg (fun hband => absurd hlow (not_lt.mpr hband.1)),
      falloffAlpha, if_neg (not_le.mpr hrρ)]
  · intro hband hρR
    rw [fragShader, if_neg (not_lt.mpr hρR), if_pos ⟨hband, hρR⟩]
  · intro hlt ε hε
    refine ⟨min (ε * (R - r)) (R - r),
      lt_min (mul_pos hε (by linarith)) (by linarith), ?_⟩
    intro ρ2 h2 h3
    have hmin1 : min (ε * (R - r)) (R - r) ≤ ε * (R - r) := min_le_left _ _
    have hmin2 : min (ε * (R - r)) (R - r) ≤ R - r := min_le_right _ _
    have hr2 : r < ρ2 := by linarith
    rw [falloffAlpha, if_neg (not_le.mpr hr2), clamp]
    have hv : (R - ρ2) / (R - r) < ε := by
      rw [div_lt_iff₀ (by linarith)]
      linarith
    exact le_trans (min_le_left _ _) (le_of_lt (max_lt hv hε))

/-- C1 witness: a fragment strictly between the core radius and the band,
at `ρ = 1/2`, `R = 1`, `r = 1/4`, gets the clamped linear falloff opacity. -/
theorem fragShader_falloff_law_witness :
    fragShader 0 0 0 (1/2) 1 (1/4) =
      some ⟨0, 0, 0, clamp ((1 - 1/2) / (1 - 1/4)) 0 1⟩ :=
  (fragShader_falloff_law 0 0 0 (1/2) 1 (1/4) (by norm_num)
    (by norm_num)).2.2.1 (by norm_num) (by norm_num)

/-- Length of the interleaved buffer produced by a loop writing three slots
per index. -/
lemma tripleChunk_length (f g h : ℕ → ℚ) (n : ℕ) :
    ((List.range n).flatMap fun j => [f j, g j, h j]).length = 3 * n := by
  induction n with
  | zero => simp
  | succ m ih =>
    rw [List.range_succ, List.flatMap_append, List.length_append, ih]
    simp
    ring

/-- Slots `3i`, `3i+1`, `3i+2` of the interleaved buffer hold `f i`, `g i`,
`h i`. -/
lemma tripleChunk_getD (f g h : ℕ → ℚ) (n i : ℕ) (hi : i < n) :
    (((List.range n).flatMap fun j => [f j, g j, h j]).getD (3*i) 0 = f i) ∧
    (((List.range n).flatMap fun j => [f j, g j, h j]).getD (3*i+1) 0 = g i) ∧
    (((List.range n).flatMap fun j => [f j, g j, h j]).getD (3*i+2) 0 = h i) := by
  induction n with
  | zero => omega
  | succ m ih =>
    rw [List.range_succ, List.flatMap_append]
    have hlen : ((List.range m).flatMap fun j => [f j, g j, h j]).length = 3 * m :=
      tripleChunk_length f g h m
    rcases Nat.lt_or_ge i m with hlt | hge
    · have h0 : 3*i < 3*m := by omega
      have h1 : 3*i+1 < 3*m := by omega
      have h2 : 3*i+2 < 3*m := by omega
      rw [List.getD_append _ _ 0 _ (by omega : 3*i < _),
        List.getD_append _ _ 0 _ (by omega : 3*i+1 < _),
        List.getD_append _ _ 0 _ (by omega : 3*i+2 < _)]
      exact ih hlt
    · have heq : i = m := by omega
      subst heq
      rw [List.getD_append_right _ _ 0 _ (by omega : _ ≤ 3*i),
        List.getD_append_right _ _ 0 _ (by omega : _ ≤ 3*i+1),
        List.getD_append_right _ _ 0 _ (by omega : _ ≤ 3*i+2), hlen]
      have e0 : 3*i - 3*i = 0 := by omega
      have e1 : 3*i+1 - 3*i = 1 := by omega
      have e2 : 3*i+2 - 3*i = 2 := by omega
      rw [e0, e1, e2]
      simp

/-- C6: the geometry builder is deterministic and order-preserving: for
inputs of common length `n` and any `i < n`, the position buffer holds
`(x[i], y[i], z[i])` at slots `3i`, `3i+1`, `3i+2`, the size buffer holds
`size[i]` at slot `i`, the core-size buffer holds `core[i]` at slot `i`,
and the buffers have lengths `3n`, `n`, `n`. -/
theorem geometry_builder_order (x y z size core : List ℚ) (n i : ℕ)
    (hx : x.length = n) (hy : y.length = n) (hz : z.length = n)
    (hs : size.length = n) (hc : core.length = n) (hi : i < n) :
    (buildPositions x y z).getD (3*i) 0 = x.getD i 0 ∧
    (buildPositions x y z).getD (3*i+1) 0 = y.getD i 0 ∧
    (buildPositions x y z).getD (3*i+2) 0 = z.getD i 0 ∧
    (buildRadius x size).getD i 0 = size.getD i 0 ∧
    (buildCoreRadius x core).getD i 0 = core.getD i 0 ∧
    (buildPositions x y z).length = 3 * n ∧
    (buildRadius x size).length = n ∧
    (buildCoreRadius x core).length = n := by
  have hTriple := tripleChunk_getD (fun j => x.getD j 0) (fun j => y.getD j 0)
    (fun j => z.getD j 0) x.length i (by omega)
  have hTlen := tripleChunk_length (fun j => x.getD j 0) (fun j => y.getD j 0)
    (fun j => z.getD j 0) x.length
  have hiRange : i < (List.range x.length).length := by
    rw [List.length_range]; omega
  refine ⟨hTriple.1, hTriple.2.1, hTriple.2.2, ?_, ?_, by rw [buildPositions, hTlen, hx],
    by rw [buildRadius, List.length_map, List.length_range, hx],
    by rw [buildCoreRadius, List.length_map, List.length_range, hx]⟩
  · rw [buildRadius, List.getD_eq_getElem _ 0 (by simpa using hiRange),
      List.getElem_map, List.getElem_range]
  · rw [buildCoreRadius, List.getD_eq_getElem _ 0 (by simpa using hiRange),
      List.getElem_map, List.getElem_range]

/-- C6 witness at concrete input arrays of length 2, index 1. -/
theorem geometry_builder_order_witness :
    (buildPositions [1, 2] [3, 4] [5, 6]).getD (3*1) 0 = List.getD [1, 2] 1 0 ∧
    (buildPositions [1, 2] [3, 4] [5, 6]).getD (3*1+1) 0 = List.getD [3, 4] 1 0 ∧
    (buildPositions [1, 2] [3, 4] [5, 6]).getD (3*1+2) 0 = List.getD [5, 6] 1 0 ∧
    (buildRadius [1, 2] [7, 8]).getD 1 0 = List.getD [7, 8] 1 0 ∧
    (buildCoreRadius [1, 2] [9, 10]).getD 1 0 = List.getD [9, 10] 1 0 ∧
    (buildPositions [1, 2] [3, 4] [5, 6]).length = 3 * 2 ∧
    (buildRadius [1, 2] [7, 8]).length = 2 ∧
    (buildCoreRadius [1, 2] [9, 10]).length = 2 :=
  geometry_builder_order [1, 2] [3, 4] [5, 6] [7, 8] [9, 10] 2 1
    rfl rfl rfl rfl rfl (by omega)

/-- C8: for every catalog and mass threshold, the six arrays handed to the
renderer have the same length, equal to the number of halos with mass at
least the threshold; the values at each index all come from the same halo,
which belongs to the catalog and passes the threshold; and the filtered
list is an order-preserving subsequence of the catalog. -/
theorem catalog_filter_projection (halos : List Halo) (massThreshold : ℚ)
    (i : ℕ) (hi : i < (prepareData halos massThreshold).x.length) :
    ((prepareData halos massThreshold).x.length =
        halos.countP (fun h => decide (massThreshold ≤ h.mass)) ∧
      (prepareData halos massThreshold).y.length =
        (prepareData halos massThreshold).x.length ∧
      (prepareData halos massThreshold).z.length =
        (prepareData halos massThreshold).x.length ∧
      (prepareData halos massThreshold).rvir.length =
        (prepareData halos massThreshold).x.length ∧
      (prepareData halos massThreshold).rc.length =
        (prepareData halos massThreshold).x.length ∧
      (prepareData halos massThreshold).ids.length =
        (prepareData halos massThreshold).x.length) ∧
    (∃ h : Halo, h ∈ halos ∧ massThreshold ≤ h.mass ∧
      (prepareData halos massThreshold).x.getD i 0 = h.x ∧
      (prepareData halos massThreshold).y.getD i 0 = h.y ∧
      (prepareData halos massThreshold).z.getD i 0 = h.z ∧
      (prepareData halos massThreshold).rvir.getD i 0 = h.r200b ∧
      (prepareData halos massThreshold).rc.getD i 0 = h.rc ∧
      (prepareData halos massThreshold).ids.getD i 0 = h.id) ∧
    List.Sublist (filterHalos halos massThreshold) halos := by
  have hlen : (prepareData halos massThreshold).x.length =
      (filterHalos halos massThreshold).length := by
    rw [prepareData]
    exact List.length_map _ _
  have hcount : (filterHalos halos massThreshold).length =
      halos.countP (fun h => decide (massThreshold ≤ h.mass)) := by
    rw [filterHalos]
    exact (List.countP_eq_length_filter _ _).symm
  refine ⟨⟨by rw [hlen, hcount], ?_, ?_, ?_, ?_, ?_⟩, ?_, ?_⟩
  · rw [prepareData]; simp
  · rw [prepareData]; simp
  · rw [prepareData]; simp
  · rw [prepareData]; simp
  · rw [prepareData]; simp
  · have hif : i < (filterHalos halos massThreshold).length := by rw [← hlen]; exact hi
    refine ⟨(filterHalos halos massThreshold)[i], ?_, ?_, ?_, ?_, ?_, ?_, ?_, ?_⟩
    · exact List.mem_of_mem_filter (List.getElem_mem hif)
    · have := List.of_mem_filter (List.getElem_mem hif)
      simpa using this
    · rw [prepareData]
      rw [List.getD_eq_getElem _ 0 (by simpa using hif), List.getElem_map]
    · rw [prepareData]
      rw [List.getD_eq_getElem _ 0 (by simpa using hif), List.getElem_map]
    · rw [prepareData]
      rw [List.getD_eq_getElem _ 0 (by simpa using hif), List.getElem_map]
    · rw [prepareData]
      rw [List.getD_eq_getElem _ 0 (by simpa using hif), List.getElem_map]
    · rw [prepareData]
      rw [List.getD_eq_getElem _ 0 (by simpa using hif), List.getElem_map]
    · rw [prepareData]
      rw [List.getD_eq_getElem _ 0 (by simpa using hif), List.getElem_map]
  · exact List.filter_sublist halos

/-- C8 witness at a concrete two-halo catalog with threshold 5: only the
second halo passes, and all six projected values at index 0 come from it. -/
theorem catalog_filter_projection_witness :
    ((prepareData [⟨1, 1, 2, 3, 4, 5, 6⟩, ⟨2, 7, 8, 9, 10, 11, 12⟩] 5).x.length =
        List.countP (fun h : Halo => decide ((5:ℚ) ≤ h.mass))
          ([⟨1, 1, 2, 3, 4, 5, 6⟩, ⟨2, 7, 8, 9, 10, 11, 12⟩] : List Halo) ∧
      (prepareData [⟨1, 1, 2, 3, 4, 5, 6⟩, ⟨2, 7, 8, 9, 10, 11, 12⟩] 5).y.length =
        (prepareData [⟨1, 1, 2, 3, 4, 5, 6⟩, ⟨2, 7, 8, 9, 10, 11, 12⟩] 5).x.length ∧
      (prepareData [⟨1, 1, 2, 3, 4, 5, 6⟩, ⟨2, 7, 8, 9, 10, 11, 12⟩] 5).z.length =
        (prepareData [⟨1, 1, 2, 3, 4, 5, 6⟩, ⟨2, 7, 8, 9, 10, 11, 12⟩] 5).x.length ∧
      (prepareData [⟨1, 1, 2, 3, 4, 5, 6⟩, ⟨2, 7, 8, 9, 10, 11, 12⟩] 5).rvir.length =
        (prepareData [⟨1, 1, 2, 3, 4, 5, 6⟩, ⟨2, 7, 8, 9, 10, 11, 12⟩] 5).x.length ∧
      (prepareData [⟨1, 1, 2, 3, 4, 5, 6⟩, ⟨2, 7, 8, 9, 10, 11, 12⟩] 5).rc.length =
        (prepareData [⟨1, 1, 2, 3, 4, 5, 6⟩, ⟨2, 7, 8, 9, 10, 11, 12⟩] 5).x.length ∧
      (prepareData [⟨1, 1, 2, 3, 4, 5, 6⟩, ⟨2, 7, 8, 9, 10, 11, 12⟩] 5).ids.length =
        (prepareData [⟨1, 1, 2, 3, 4, 5, 6⟩, ⟨2, 7, 8, 9, 10, 11, 12⟩] 5).x.length) ∧
    (∃ h : Halo, h ∈ ([⟨1, 1, 2, 3, 4, 5, 6⟩, ⟨2, 7, 8, 9, 10, 11, 12⟩] : List Halo) ∧
      (5:ℚ) ≤ h.mass ∧
      (prepareData [⟨1, 1, 2, 3, 4, 5, 6⟩, ⟨2, 7, 8, 9, 10, 11, 12⟩] 5).x.getD 0 0 = h.x ∧
      (prepareData [⟨1, 1, 2, 3, 4, 5, 6⟩, ⟨2, 7, 8, 9, 10, 11, 12⟩] 5).y.getD 0 0 = h.y ∧
      (prepareData [⟨1, 1, 2, 3, 4, 5, 6⟩, ⟨2, 7, 8, 9, 10, 11, 12⟩] 5).z.getD 0 0 = h.z ∧
      (prepareData [⟨1, 1, 2, 3, 4, 5, 6⟩, ⟨2, 7, 8, 9, 10, 11, 12⟩] 5).rvir.getD 0 0 = h.r200b ∧
      (prepareData [⟨1, 1, 2, 3, 4, 5, 6⟩, ⟨2, 7, 8, 9, 10, 11, 12⟩] 5).rc.getD 0 0 = h.rc ∧
      (prepareData [⟨1, 1, 2, 3, 4, 5, 6⟩, ⟨2, 7, 8, 9, 10, 11, 12⟩] 5).ids.getD 0 0 = h.id) ∧
    List.Sublist (filterHalos [⟨1, 1, 2, 3, 4, 5, 6⟩, ⟨2, 7, 8, 9, 10, 11, 12⟩] 5)
      [⟨1, 1, 2, 3, 4, 5, 6⟩, ⟨2, 7, 8, 9, 10, 11, 12⟩] :=
  catalog_filter_projection [⟨1, 1, 2, 3, 4, 5, 6⟩, ⟨2, 7, 8, 9, 10, 11, 12⟩] 5 0
    (by norm_num [prepareData, filterHalos])

/-- Nested scalar multiplications combine. -/
lemma Vec3.smul_smul (a b : ℝ) (v : Vec3) :
    Vec3.smul a (Vec3.smul b v) = Vec3.smul (a * b) v := by
  simp [Vec3.smul, Vec3.mk.injEq, mul_assoc]

/-- The norm scales with the absolute value of the scalar. -/
lemma Vec3.length_smul (t : ℝ) (v : Vec3) :
    (Vec3.smul t v).length = |t| * v.length := by
  simp only [Vec3.smul, Vec3.length]
  rw [show (t * v.x) ^ 2 + (t * v.y) ^ 2 + (t * v.z) ^ 2
      = t ^ 2 * (v.x ^ 2 + v.y ^ 2 + v.z ^ 2) by ring,
    Real.sqrt_mul (sq_nonneg t), Real.sqrt_sq_eq_abs]

/-- A nonzero vector has positive norm. -/
lemma Vec3.length_pos (v : Vec3) (h : v ≠ Vec3.mk 0 0 0) : 0 < v.length := by
  rw [Vec3.length]
  apply Real.sqrt_pos.mpr
  rcases eq_or_lt_of_le (by positivity : (0:ℝ) ≤ v.x ^ 2 + v.y ^ 2 + v.z ^ 2) with
    heq | hlt
  · exfalso
    apply h
    have hx2 : v.x ^ 2 = 0 := by nlinarith [sq_nonneg v.x, sq_nonneg v.y, sq_nonneg v.z]
    have hy2 : v.y ^ 2 = 0 := by nlinarith [sq_nonneg v.x, sq_nonneg v.y, sq_nonneg v.z]
    have hz2 : v.z ^ 2 = 0 := by nlinarith [sq_nonneg v.x, sq_nonneg v.y, sq_nonneg v.z]
    have hx := (pow_eq_zero_iff (by norm_num : (2:ℕ) ≠ 0)).mp hx2
    have hy := (pow_eq_zero_iff (by norm_num : (2:ℕ) ≠ 0)).mp hy2
    have hz := (pow_eq_zero_iff (by norm_num : (2:ℕ) ≠ 0)).mp hz2
    have hv : Vec3.mk v.x v.y v.z = Vec3.mk 0 0 0 := by rw [hx, hy, hz]
    exact hv
  · exact hlt

/-- Subtracting a point from the point displaced by `w` gives `-w`. -/
lemma Vec3.sub_sub_self (a w : Vec3) :
    Vec3.sub (Vec3.sub a w) a = Vec3.smul (-1) w := by
  cases a; cases w
  simp only [Vec3.sub, Vec3.smul, Vec3.mk.injEq]
  refine ⟨by ring, by ring, by ring⟩

/-- Swapping the ends of a difference negates it. -/
lemma Vec3.sub_swap (a b : Vec3) :
    Vec3.sub a b = Vec3.smul (-1) (Vec3.sub b a) := by
  cases a; cases b
  simp only [Vec3.sub, Vec3.smul, Vec3.mk.injEq]
  refine ⟨by ring, by ring, by ring⟩

/-- The geometry of the fly-to end position: for a camera not at the entity
position and a nonnegative travel distance `d`, the end position is at
distance exactly `d` from the entity position, on the ray from the entity
position toward the pre-animation camera position. -/
lemma newCameraPosition_spec (cam tgt : Vec3) (d : ℝ)
    (hne : Vec3.sub tgt cam ≠ Vec3.mk 0 0 0) (hd : 0 ≤ d) :
    (Vec3.sub (newCameraPosition cam tgt d) tgt).length = d ∧
    ∃ t : ℝ, 0 ≤ t ∧
      Vec3.sub (newCameraPosition cam tgt d) tgt =
        Vec3.smul t (Vec3.sub cam tgt) := by
  have hlen : 0 < (Vec3.sub tgt cam).length := Vec3.length_pos _ hne
  have hmain : Vec3.sub (newCameraPosition cam tgt d) tgt
      = Vec3.smul (-(d * (1 / (Vec3.sub tgt cam).length))) (Vec3.sub tgt cam) := by
    rw [newCameraPosition, Vec3.sub_sub_self, Vec3.normalize, Vec3.smul_smul,
      Vec3.smul_smul]
    ring_nf
  constructor
  · rw [hmain, Vec3.length_smul, abs_neg,
      abs_of_nonneg (by positivity : 0 ≤ d * (1 / (Vec3.sub tgt cam).length))]
    field_simp
  · refine ⟨d * (1 / (Vec3.sub tgt cam).length), by positivity, ?_⟩
    rw [hmain, Vec3.sub_swap cam tgt, Vec3.smul_smul]
    ring_nf

/-- Reduction of the selection-change effect when the id is found at index
`i`. -/
lemma flyToCompute_found (dist : ℝ → ℝ) (ids : List ℤ) (s : ℤ) (i : ℕ)
    (xs ys zs sizes : List ℝ) (cam : Vec3)
    (hfound : (ids.findIdx? fun id => id == s) = some i) :
    flyToCompute dist ids (some s) xs ys zs sizes cam =
      some (newCameraPosition cam ⟨xs.getD i 0, ys.getD i 0, zs.getD i 0⟩
        (dist (sizes.getD i 0)), ⟨xs.getD i 0, ys.getD i 0, zs.getD i 0⟩) := by
  cases ids with
  | nil => simp [List.findIdx?] at hfound
  | cons a l => simp [flyToCompute, hfound]

/-- If the selected id is in none of the entries, `findIndex` finds
nothing. -/
lemma findIdx_none_of_not_mem (ids : List ℤ) (s : ℤ) (h : s ∉ ids) :
    (ids.findIdx? fun id => id == s) = none := by
  rw [List.findIdx?_eq_none_iff]
  intro x hx
  rw [beq_eq_false_iff_ne]
  rintro rfl
  exact h hx

/-- C5: a selection whose id is not in the current id list is a silent
no-op: the handler starts no animation (it returns before building one)
and the camera position and orbit target are unchanged. -/
theorem flyTo_missing_id_noop (dist : ℝ → ℝ) (ids : List ℤ) (s : ℤ)
    (xs ys zs sizes : List ℝ) (cam : Vec3) (state : Vec3 × Vec3)
    (h : s ∉ ids) :
    flyToCompute dist ids (some s) xs ys zs sizes cam = none ∧
    applyFlyTo state (flyToCompute dist ids (some s) xs ys zs sizes cam) =
      state := by
  have hnone := findIdx_none_of_not_mem ids s h
  have hmain : flyToCompute dist ids (some s) xs ys zs sizes cam = none := by
    by_cases he : ids.isEmpty <;> simp [flyToCompute, he, hnone]
  exact ⟨hmain, by rw [hmain]; rfl⟩

/-- C5 witness: selecting id 3 while the catalog holds ids 1 and 2 changes
nothing. -/
theorem flyTo_missing_id_noop_witness :
    flyToCompute flyToDistanceRevA [1, 2] (some 3) [] [] [] [] (Vec3.mk 0 0 0) =
      none ∧
    applyFlyTo (Vec3.mk 0 0 0, Vec3.mk 0 0 0)
      (flyToCompute flyToDistanceRevA [1, 2] (some 3) [] [] [] [] (Vec3.mk 0 0 0)) =
      (Vec3.mk 0 0 0, Vec3.mk 0 0 0) :=
  flyTo_missing_id_noop flyToDistanceRevA [1, 2] 3 [] [] [] []
    (Vec3.mk 0 0 0) (Vec3.mk 0 0 0, Vec3.mk 0 0 0) (by decide)

/-- C2 (amended): for every selection of an entity present in the catalog
(found at index `i`), with the camera not already at the entity position
`tgt` and a nonnegative outer radius, each revision of the handler ends the
animation with the orbit target at the entity position and the camera on
the ray from the entity position toward the pre-animation camera position,
at distance `max(R*10, 1)` in rev A, `min(R*3, 0.1)` in rev B and
`max(R*2, 1)` in rev C. -/
theorem flyTo_end_position (ids : List ℤ) (s : ℤ) (i : ℕ)
    (xs ys zs sizes : List ℝ) (cam tgt : Vec3)
    (hfound : (ids.findIdx? fun id => id == s) = some i)
    (htgt : tgt = ⟨xs.getD i 0, ys.getD i 0, zs.getD i 0⟩)
    (hne : Vec3.sub tgt cam ≠ Vec3.mk 0 0 0)
    (hR : 0 ≤ sizes.getD i 0) :
    (flyToHandlerRevA ids (some s) xs ys zs sizes cam =
        some (newCameraPosition cam tgt (max (sizes.getD i 0 * 10) 1), tgt) ∧
      (Vec3.sub (newCameraPosition cam tgt (max (sizes.getD i 0 * 10) 1)) tgt).length =
        max (sizes.getD i 0 * 10) 1 ∧
      ∃ t1 : ℝ, 0 ≤ t1 ∧
        Vec3.sub (newCameraPosition cam tgt (max (sizes.getD i 0 * 10) 1)) tgt =
          Vec3.smul t1 (Vec3.sub cam tgt)) ∧
    (flyToHandlerRevB ids (some s) xs ys zs sizes cam =
        some (newCameraPosition cam tgt (min (sizes.getD i 0 * 3) (1 / 10)), tgt) ∧
      (Vec3.sub (newCameraPosition cam tgt (min (sizes.getD i 0 * 3) (1 / 10))) tgt).length =
        min (sizes.getD i 0 * 3) (1 / 10) ∧
      ∃ t2 : ℝ, 0 ≤ t2 ∧
        Vec3.sub (newCameraPosition cam tgt (min (sizes.getD i 0 * 3) (1 / 10))) tgt =
          Vec3.smul t2 (Vec3.sub cam tgt)) ∧
    (flyToHandlerRevC ids (some s) xs ys zs sizes cam =
        some (newCameraPosition cam tgt (max (sizes.getD i 0 * 2) 1), tgt) ∧
      (Vec3.sub (newCameraPosition cam tgt (max (sizes.getD i 0 * 2) 1)) tgt).length =
        max (sizes.getD i 0 * 2) 1 ∧
      ∃ t3 : ℝ, 0 ≤ t3 ∧
        Vec3.sub (newCameraPosition cam tgt (max (sizes.getD i 0 * 2) 1)) tgt =
          Vec3.smul t3 (Vec3.sub cam tgt)) := by
  have hdA : (0:ℝ) ≤ max (sizes.getD i 0 * 10) 1 :=
    le_trans zero_le_one (le_max_right _ _)
  have hdB : (0:ℝ) ≤ min (sizes.getD i 0 * 3) (1 / 10) :=
    le_min (by positivity) (by norm_num)
  have hdC : (0:ℝ) ≤ max (sizes.getD i 0 * 2) 1 :=
    le_trans zero_le_one (le_max_right _ _)
  refine ⟨⟨?_, newCameraPosition_spec cam tgt _ hne hdA⟩,
    ⟨?_, newCameraPosition_spec cam tgt _ hne hdB⟩,
    ⟨?_, newCameraPosition_spec cam tgt _ hne hdC⟩⟩
  · rw [htgt]
    exact flyToCompute_found flyToDistanceRevA ids s i xs ys zs sizes cam hfound
  · rw [htgt]
    exact flyToCompute_found flyToDistanceRevB ids s i xs ys zs sizes cam hfound
  · rw [htgt]
    exact flyToCompute_found flyToDistanceRevC ids s i xs ys zs sizes cam hfound

/-- C2 witness at the specification test vector: camera at the origin,
entity at `(1, 0, 0)` with outer radius `0.1`. -/
theorem flyTo_end_position_witness :
    (flyToHandlerRevA [5] (some 5) [1] [0] [0] [1/10] (Vec3.mk 0 0 0) =
        some (newCameraPosition (Vec3.mk 0 0 0) (Vec3.mk 1 0 0)
          (max (List.getD [(1:ℝ)/10] 0 0 * 10) 1), Vec3.mk 1 0 0) ∧
      (Vec3.sub (newCameraPosition (Vec3.mk 0 0 0) (Vec3.mk 1 0 0)
          (max (List.getD [(1:ℝ)/10] 0 0 * 10) 1)) (Vec3.mk 1 0 0)).length =
        max (List.getD [(1:ℝ)/10] 0 0 * 10) 1 ∧
      ∃ t1 : ℝ, 0 ≤ t1 ∧
        Vec3.sub (newCameraPosition (Vec3.mk 0 0 0) (Vec3.mk 1 0 0)
            (max (List.getD [(1:ℝ)/10] 0 0 * 10) 1)) (Vec3.mk 1 0 0) =
          Vec3.smul t1 (Vec3.sub (Vec3.mk 0 0 0) (Vec3.mk 1 0 0))) ∧
    (flyToHandlerRevB [5] (some 5) [1] [0] [0] [1/10] (Vec3.mk 0 0 0) =
        some (newCameraPosition (Vec3.mk 0 0 0) (Vec3.mk 1 0 0)
          (min (List.getD [(1:ℝ)/10] 0 0 * 3) (1 / 10)), Vec3.mk 1 0 0) ∧
      (Vec3.sub (newCameraPosition (Vec3.mk 0 0 0) (Vec3.mk 1 0 0)
          (min (List.getD [(1:ℝ)/10] 0 0 * 3) (1 / 10))) (Vec3.mk 1 0 0)).length =
        min (List.getD [(1:ℝ)/10] 0 0 * 3) (1 / 10) ∧
      ∃ t2 : ℝ, 0 ≤ t2 ∧
        Vec3.sub (newCameraPosition (Vec3.mk 0 0 0) (Vec3.mk 1 0 0)
            (min (List.getD [(1:ℝ)/10] 0 0 * 3) (1 / 10))) (Vec3.mk 1 0 0) =
          Vec3.smul t2 (Vec3.sub (Vec3.mk 0 0 0) (Vec3.mk 1 0 0))) ∧
    (flyToHandlerRevC [5] (some 5) [1] [0] [0] [1/10] (Vec3.mk 0 0 0) =
        some (newCameraPosition (Vec3.mk 0 0 0) (Vec3.mk 1 0 0)
          (max (List.getD [(1:ℝ)/10] 0 0 * 2) 1), Vec3.mk 1 0 0) ∧
      (Vec3.sub (newCameraPosition (Vec3.mk 0 0 0) (Vec3.mk 1 0 0)
          (max (List.getD [(1:ℝ)/10] 0 0 * 2) 1)) (Vec3.mk 1 0 0)).length =
        max (List.getD [(1:ℝ)/10] 0 0 * 2) 1 ∧
      ∃ t3 : ℝ, 0 ≤ t3 ∧
        Vec3.sub (newCameraPosition (Vec3.mk 0 0 0) (Vec3.mk 1 0 0)
            (max (List.getD [(1:ℝ)/10] 0 0 * 2) 1)) (Vec3.mk 1 0 0) =
          Vec3.smul t3 (Vec3.sub (Vec3.mk 0 0 0) (Vec3.mk 1 0 0))) :=
  flyTo_end_position [5] 5 0 [1] [0] [0] [1/10] (Vec3.mk 0 0 0) (Vec3.mk 1 0 0)
    (by decide) rfl (by simp [Vec3.sub]) (by norm_num)

/-- C2 counterexample: in rev B (`distance = Math.min(haloSize * 3, 0.1)`),
for an entity at `(1, 0, 0)` with outer radius 1 and the camera at the
origin, the end camera position is at distance `0.1` from the entity, which
is not `max(outerRadius * k, floor)` for the constants `k = 3`,
`floor = 0.1` appearing in that revision. -/
theorem flyTo_revB_distance_cex :
    flyToHandlerRevB [5] (some 5) [1] [0] [0] [1] (Vec3.mk 0 0 0) =
      some (Vec3.mk (9/10) 0 0, Vec3.mk 1 0 0) ∧
    (Vec3.sub (Vec3.mk ((9:ℝ)/10) 0 0) (Vec3.mk 1 0 0)).length = 1 / 10 ∧
    (1 / 10 : ℝ) ≠ max (1 * 3) (1 / 10) := by
  have hlen1 : (Vec3.mk (1:ℝ) 0 0).length = 1 := by
    rw [Vec3.length]
    norm_num
  refine ⟨?_, ?_, by norm_num⟩
  · have h1 := flyToCompute_found flyToDistanceRevB [5] 5 0 [1] [0] [0] [1]
      (Vec3.mk 0 0 0) (by decide)
    have hd : flyToDistanceRevB (List.getD [(1:ℝ)] 0 0) = 1 / 10 := by
      rw [flyToDistanceRevB]
      norm_num
    have h2 : newCameraPosition (Vec3.mk 0 0 0) (Vec3.mk 1 0 0) (1 / 10) =
        Vec3.mk (9/10) 0 0 := by
      rw [newCameraPosition]
      have hsub : Vec3.sub (Vec3.mk (1:ℝ) 0 0) (Vec3.mk 0 0 0) = Vec3.mk 1 0 0 := by
        simp [Vec3.sub]
      rw [hsub, Vec3.normalize, hlen1]
      simp only [Vec3.smul, Vec3.sub, Vec3.mk.injEq]
      norm_num
    have hg1 : (List.getD [(1:ℝ)] 0 0) = 1 := rfl
    have hg0 : (List.getD [(0:ℝ)] 0 0) = 0 := rfl
    rw [hg1, hg0] at h1
    rw [hg1] at hd
    show flyToCompute flyToDistanceRevB [5] (some 5) [1] [0] [0] [1]
      (Vec3.mk 0 0 0) = some (Vec3.mk (9/10) 0 0, Vec3.mk 1 0 0)
    rw [h1, hd, h2]
  · rw [Vec3.sub, Vec3.length]
    simp only
    rw [show ((9:ℝ)/10 - 1) ^ 2 + (0 - 0:ℝ) ^ 2 + (0 - 0:ℝ) ^ 2 = (1/10:ℝ) ^ 2 by
      norm_num]
    rw [Real.sqrt_sq (by norm_num)]

/-- Evaluation of the rev C vertex-stage footprint for an on-axis entity:
the screen diameter in pixels is exactly `fx * W * (R / D)`. -/
lemma footprintRevC_eval (fx fy zA zB W R D : ℝ)
    (hfx : 0 < fx) (hW : 0 < W) (hR : 0 ≤ R) (hD : 0 < D) :
    footprintOnAxisRevC fx fy zA zB W R D = fx * W * (R / D) := by
  rw [footprintOnAxisRevC, glPointSizeRevC, radiusPixels]
  simp only [perspProj, ndcX, ndcY, len2]
  rw [show fx * R / -(-D) - fx * 0 / -(-D) = fx * R / D by ring,
    show fy * 0 / -(-D) - fy * 0 / -(-D) = 0 by ring]
  rw [show (fx * R / D) ^ 2 + (0:ℝ) ^ 2 = (fx * R / D) ^ 2 by ring,
    Real.sqrt_sq (by positivity)]
  ring

/-- C4: the on-screen footprint diameter is proportional to
`R / distance`: the rev C vertex stage yields `fx * W * (R / D)` and the
rev A vertex stage yields `4000 * (R / D)` for an on-axis entity at
distance `D`, and both halve exactly when `D` doubles. -/
theorem footprint_perspective_scaling (fx fy zA zB W R D : ℝ)
    (hfx : 0 < fx) (hW : 0 < W) (hR : 0 ≤ R) (hD : 0 < D) :
    footprintOnAxisRevC fx fy zA zB W R D = fx * W * (R / D) ∧
    footprintOnAxisRevC fx fy zA zB W R (2 * D) =
      footprintOnAxisRevC fx fy zA zB W R D / 2 ∧
    footprintOnAxisRevA R D = 4000 * (R / D) ∧
    footprintOnAxisRevA R (2 * D) = footprintOnAxisRevA R D / 2 := by
  have h1 := footprintRevC_eval fx fy zA zB W R D hfx hW hR hD
  have h2 := footprintRevC_eval fx fy zA zB W R (2 * D) hfx hW hR (by linarith)
  have hD0 : D ≠ 0 := ne_of_gt hD
  refine ⟨h1, ?_, ?_, ?_⟩
  · rw [h1, h2, show R / (2 * D) = R / D / 2 by rw [div_div, mul_comm]]
    ring
  · rw [footprintOnAxisRevA, glPointSizeRevA]
    ring
  · rw [footprintOnAxisRevA, footprintOnAxisRevA, glPointSizeRevA, glPointSizeRevA]
    rw [neg_neg, neg_neg, show R * 4 * 1000 / (2 * D) = R * 4 * 1000 / D / 2 by
      rw [div_div]; ring]

/-- C4 witness at concrete camera parameters and distances. -/
theorem footprint_perspective_scaling_witness :
    footprintOnAxisRevC 1 1 1 1 1 1 1 = 1 * 1 * (1 / 1) ∧
    footprintOnAxisRevC 1 1 1 1 1 1 (2 * 1) = footprintOnAxisRevC 1 1 1 1 1 1 1 / 2 ∧
    footprintOnAxisRevA 1 1 = 4000 * (1 / 1) ∧
    footprintOnAxisRevA 1 (2 * 1) = footprintOnAxisRevA 1 1 / 2 :=
  footprint_perspective_scaling 1 1 1 1 1 1 1 (by norm_num) (by norm_num)
    (by norm_num) (by norm_num)

end HaloViewer
